import Mathlib

/-!
# Round-trip latency harness (`ping_pong.c`)

A shallow embedding of the CycloneDDS intraprocess round-trip benchmark
`roundtrip_intraprocess/ping_pong.c`, and theorems about it.

Conventions of the embedding.

* `unsigned long` and `uint64_t` are naturals reduced modulo `2 ^ 64` (LP64), `uint32_t` is
  a natural reduced modulo `2 ^ 32`, `dds_time_t` (a signed 64-bit count of nanoseconds) is an
  integer; subtraction of two clock readings is taken without wrap-around.
* `double` is read as exact rational arithmetic (`ℚ`).
* A pointer to a heap block is `Option (List Int)`: `none` is `NULL`, `some cells` is a block
  holding one integer per `dds_time_t` cell.  An index outside the block is not a cell of the
  program: a read there has no value in the model and a write there is not recorded.
* Everything the program receives from outside (the allocator, the clock, the transport) is an
  explicit argument of the function that consumes it.
* `DDS_FATAL` ends the process; a function that can reach it returns an `Option`, `none`
  standing for the terminated process.  A store through a `NULL` pointer ends the process as
  well: `exampleResetTimeStats`, whose `memset` is not guarded, returns an `Option` too.
* The listener of the push delivery runs on a thread of the transport.  Its invocations are
  placed between the statements of `pub_main`; an invocation that overlaps one statement is
  outside the model.
-/

namespace PingPong

/-! ## Constants -/

/-- Source line 10: `#define TIME_STATS_SIZE_INCREMENT 50000`. -/
def TIME_STATS_SIZE_INCREMENT : Nat := 50000

/-- Source line 11: `#define MAX_SAMPLES 100`. -/
def MAX_SAMPLES : Nat := 100

/-- Number of values of an `unsigned long` / `uint64_t` / `size_t`. -/
def ULONG_RANGE : Nat := 2 ^ 64

/-- Number of values of a `uint32_t`. -/
def UINT32_RANGE : Nat := 2 ^ 32

/-- Size in bytes of one `dds_time_t` cell (`sizeof (dds_time_t)`). -/
def SIZEOF_DDS_TIME : Nat := 8

/-! ## The allocator -/

/-- Answer of the C allocator to one request: `ok = false` is the `NULL` answer, and
`junk i` is the indeterminate content found in the `i`-th cell of fresh memory. -/
structure Allocator where
  ok : Bool
  junk : Nat → Int

/-- Number of whole `dds_time_t` cells in a request of `n * sizeof (dds_time_t)` bytes, the
product being formed in `size_t`. -/
def cellsOfRequest (n : Nat) : Nat :=
  (n * SIZEOF_DDS_TIME % ULONG_RANGE) / SIZEOF_DDS_TIME

/-- The call `malloc (n * sizeof (dds_time_t))`. -/
def malloc (a : Allocator) (n : Nat) : Option (List Int) :=
  if a.ok then some ((List.range (cellsOfRequest n)).map a.junk) else none

/-- The call `realloc (old, n * sizeof (dds_time_t))`: on success the old content is kept up
to the new size and the rest is fresh memory. -/
def realloc (a : Allocator) (old : Option (List Int)) (n : Nat) : Option (List Int) :=
  if a.ok then
    some (((old.getD []).take (cellsOfRequest n)) ++
      (List.range (cellsOfRequest n - ((old.getD []).take (cellsOfRequest n)).length)).map a.junk)
  else none

/-- The call `memset (block, 0, n * sizeof (dds_time_t))` on a block that exists, given by its
cells: the cells below the requested size become zero.  The call through a `NULL` pointer is
not a value of this function; see `exampleResetTimeStats`. -/
def memsetZero (cells : List Int) (n : Nat) : List Int :=
  List.replicate (min (cellsOfRequest n) cells.length) 0 ++ cells.drop (cellsOfRequest n)

/-! ## The statistics aggregator (source lines 30-86) -/

/-- Source lines 30-39: `struct ExampleTimeStats`. -/
structure ExampleTimeStats where
  values : Option (List Int)
  valuesSize : Nat
  valuesMax : Nat
  average : ℚ
  min : Int
  max : Int
  count : Nat

/-- Source lines 41-50. -/
def exampleInitTimeStats (a : Allocator) : ExampleTimeStats :=
  { values := malloc a TIME_STATS_SIZE_INCREMENT
    valuesSize := 0
    valuesMax := TIME_STATS_SIZE_INCREMENT
    average := 0
    min := 0
    max := 0
    count := 0 }

/-- Source lines 52-60.  Line 54 stores through `stats->values` without a test: when the
pointer is `NULL` (the `malloc` of line 43 failed) the process ends there and nothing is
returned, which is the result `none`. -/
def exampleResetTimeStats (stats : ExampleTimeStats) : Option ExampleTimeStats :=
  match stats.values with
  | none => none
  | some cells =>
    some
      { values := some (memsetZero cells stats.valuesMax)
        valuesSize := 0
        valuesMax := stats.valuesMax
        average := 0
        min := 0
        max := 0
        count := 0 }

/-- Source lines 70-75: the growth step of `exampleAddTimingToTimeStats`. -/
def growIfFull (a : Allocator) (stats : ExampleTimeStats) : ExampleTimeStats :=
  if stats.valuesSize > stats.valuesMax then
    { stats with
      values := realloc a stats.values ((stats.valuesMax + TIME_STATS_SIZE_INCREMENT) % ULONG_RANGE)
      valuesMax := (stats.valuesMax + TIME_STATS_SIZE_INCREMENT) % ULONG_RANGE }
  else stats

/-- Source lines 76-79: the store step of `exampleAddTimingToTimeStats`. -/
def storeTiming (stats : ExampleTimeStats) (timing : Int) : ExampleTimeStats :=
  match stats.values with
  | some cells =>
    if stats.valuesSize < stats.valuesMax then
      { stats with
        values := some (cells.set stats.valuesSize timing)
        valuesSize := stats.valuesSize + 1 }
    else stats
  | none => stats

/-- Source lines 67-86. -/
def exampleAddTimingToTimeStats (a : Allocator) (stats : ExampleTimeStats) (timing : Int) :
    ExampleTimeStats :=
  let stored := storeTiming (growIfFull a stats) timing
  { stored with
    average := ((stats.count : ℚ) * stats.average + (timing : ℚ)) /
      (((stats.count + 1) % ULONG_RANGE : Nat) : ℚ)
    min := if stats.count = 0 ∨ timing < stats.min then timing else stats.min
    max := if stats.count = 0 ∨ timing > stats.max then timing else stats.max
    count := (stats.count + 1) % ULONG_RANGE }

/-- Successive calls of `exampleAddTimingToTimeStats`, one per timing, in order. -/
def recordAll (a : Allocator) (stats : ExampleTimeStats) (timings : List Int) : ExampleTimeStats :=
  timings.foldl (exampleAddTimingToTimeStats a) stats

/-- The stored history: the cells `values[0 .. valuesSize)`. -/
def history (stats : ExampleTimeStats) : List Int :=
  (stats.values.getD []).take stats.valuesSize

/-- Arithmetic mean of a list of timings, in exact rational arithmetic. -/
def mean (timings : List Int) : ℚ :=
  (timings.map (fun t : Int => (t : ℚ))).sum / (timings.length : ℚ)

/-- The running statistics after recording `ts` from a state with `count = 0`, `average = 0`. -/
structure StatsOf (r : ExampleTimeStats) (ts : List Int) : Prop where
  count_eq : r.count = ts.length
  avg_eq : r.average * (ts.length : ℚ) = (ts.map (fun t : Int => (t : ℚ))).sum
  min_mem : ts ≠ [] → r.min ∈ ts
  min_le : ts ≠ [] → ∀ t ∈ ts, r.min ≤ t
  max_mem : ts ≠ [] → r.max ∈ ts
  le_max : ts ≠ [] → ∀ t ∈ ts, t ≤ r.max

/-- Modelled from the spec: the constant `DDS_NSECS_IN_USEC` of `dds/dds.h`, which is not part of
the sources; the spec gives the latency in microseconds as recorded-nanoseconds / 1000 / 2. -/
def DDS_NSECS_IN_USEC : Int := 1000

/-- One line `"%u,%u,%f\n"` of the output file.  `latency` is `none` when the cell read for it is
not a cell of the block `values` points to. -/
structure Row where
  sample : Nat
  payload : Nat
  latency : Option ℚ
  deriving DecidableEq

/-- Source line 302: `((double) round_trip.values[i] / DDS_NSECS_IN_USEC) / 2.0`. -/
def latencyAt (stats : ExampleTimeStats) (i : Nat) : Option ℚ :=
  ((stats.values.getD [])[i]?).map (fun v : Int => ((v : ℚ) / (DDS_NSECS_IN_USEC : ℚ)) / 2)

/-- Source lines 300-304, the loop `for (i = ...; i < round_trip.count; i++)` entered at index
`i` with `todo = count - i` iterations left and the global `sample_count` as given; every
iteration pre-increments `sample_count` (a `uint32_t`) and writes one row. -/
def exportLoop (payloadSize : Nat) (stats : ExampleTimeStats) :
    (todo : Nat) → (i : Nat) → (sample_count : Nat) → List Row
  | 0, _, _ => []
  | todo + 1, i, sample_count =>
    { sample := (sample_count + 1) % UINT32_RANGE
      payload := payloadSize
      latency := latencyAt stats i } ::
      exportLoop payloadSize stats todo (i + 1) ((sample_count + 1) % UINT32_RANGE)

/-- Source lines 298-305: the rows the export step appends to the output file. -/
def exportRows (payloadSize : Nat) (sample_count : Nat) (stats : ExampleTimeStats) : List Row :=
  exportLoop payloadSize stats stats.count 0 sample_count

/-! ## The Initiator (source lines 98-166 and 196-321) -/

/-- Source lines 22-28: `latency_args`. -/
structure latency_args where
  payloadSize : Nat
  numSamples : Nat
  timeOut : Int
  use_listener : Bool
  deriving DecidableEq

/-- The file-scope variables of the Initiator that the measurement phase reads or writes.
`pub_info0` is `pub_info[0].source_timestamp`, `triggered` is `dds_triggered (pub_waitset)`,
`written` lists the timestamps given to `dds_write_ts` on `pub_writer`, oldest first. -/
structure PubState where
  round_trip : ExampleTimeStats
  sample_count : Nat
  startTime : Int
  preWriteTime : Int
  postWriteTime : Int
  postTakeTime : Int
  elapsed : Int
  warmUp : Bool
  pub_info0 : Int
  triggered : Bool
  written : List Int

/-- The state at source line 223: the static initialisers of lines 99-143 followed by
`exampleInitTimeStats (&round_trip)`. -/
def pubStart (a : Allocator) : PubState :=
  { round_trip := exampleInitTimeStats a
    sample_count := 0
    startTime := 0
    preWriteTime := 0
    postWriteTime := 0
    postTakeTime := 0
    elapsed := 0
    warmUp := true
    pub_info0 := 0
    triggered := false
    written := [] }

/-- What the outside supplies to one call of `pub_data_available`: the result of `dds_take`
(`none` for a negative return value, otherwise the source timestamps of the samples taken, in
order), the three readings of `dds_time ()`, the return value of `dds_write_ts`, and the
allocator's answer should the aggregator ask for memory. -/
structure PubWake where
  take : Option (List Int)
  postTake : Int
  preWrite : Int
  writeStatus : Int
  postWrite : Int
  alloc : Allocator

/-- Source lines 146-166. -/
def pub_data_available (w : PubWake) (s : PubState) : Option PubState :=
  match w.take with
  | none => none
  | some stamps =>
    let info0 := stamps.headD s.pub_info0
    let difference := w.postTake - info0
    let stats := exampleAddTimingToTimeStats w.alloc s.round_trip difference
    if w.writeStatus < 0 then none
    else some { s with
      pub_info0 := info0
      postTakeTime := w.postTake
      round_trip := stats
      preWriteTime := w.preWrite
      written := s.written ++ [w.preWrite]
      postWriteTime := w.postWrite }

/-- What happens around one call of `dds_waitset_wait` in the measurement loop: whether SIGINT is
delivered (`pub_CtrlHandler` sets the trigger), the invocations of the data-available listener made
by the transport meanwhile (listener mode only), the return value of the wait, and what the
outside supplies to the call of `pub_data_available` the loop itself may make. -/
structure WaitEvent where
  sigint : Bool
  callbacks : List PubWake
  status : Int
  wake : PubWake

/-- Outcome of a run against a finite supply of events: the code was left with a result, the
process was ended by `DDS_FATAL`, the process was ended by a store through a `NULL` pointer, or
the supply ran out with the loop still iterating. -/
inductive Run (α : Type) where
  | exited (x : α)
  | fatal
  | crashed
  | blocked

/-- The value a run ended with, when the loop was left. -/
def Run.result? {α : Type} : Run α → Option α
  | Run.exited x => some x
  | Run.fatal => none
  | Run.crashed => none
  | Run.blocked => none

/-- Successive listener invocations, stopping at the first `DDS_FATAL`. -/
def runCallbacks : List PubWake → PubState → Option PubState
  | [], s => some s
  | w :: rest, s =>
    match pub_data_available w s with
    | none => none
    | some s1 => runCallbacks rest s1

/-- Source line 288: the condition of the measurement loop. -/
def loopCond (args : latency_args) (i : Nat) (s : PubState) : Bool :=
  !s.triggered && (args.numSamples == 0 || decide (i < args.numSamples)) &&
    !(args.timeOut != 0 && decide (s.elapsed ≥ args.timeOut))

/-- Source lines 290-295: the body of the measurement loop. -/
def measureStep (args : latency_args) (ev : WaitEvent) (s : PubState) : Option PubState :=
  let s1 := if ev.sigint then { s with triggered := true } else s
  match (if args.use_listener then runCallbacks ev.callbacks s1 else some s1) with
  | none => none
  | some s2 =>
    if ev.status < 0 then none
    else if ev.status ≠ 0 ∧ args.use_listener = false then pub_data_available ev.wake s2
    else some s2

/-- Source lines 288-296: the measurement loop, entered with loop counter `i`. -/
def measureLoop (args : latency_args) : List WaitEvent → Nat → PubState → Run PubState
  | [], i, s => if loopCond args i s then Run.blocked else Run.exited s
  | ev :: rest, i, s =>
    if loopCond args i s then
      match measureStep args ev s with
      | none => Run.fatal
      | some s1 => measureLoop args rest ((i + 1) % ULONG_RANGE) s1
    else Run.exited s

/-- Source lines 298-305 on the Initiator's state: the rows appended to the output file, and the
state with `sample_count` advanced. -/
def pub_export (args : latency_args) (s : PubState) : List Row × PubState :=
  (exportRows args.payloadSize s.sample_count s.round_trip,
    { s with sample_count := (s.sample_count + s.round_trip.count) % UINT32_RANGE })

/-- Source lines 300-304 in listener mode.  The listener stays registered until
`pub_finalize_dds` at line 310, so the transport may invoke it while the export runs, and the loop
re-reads `round_trip.count` at every evaluation of its condition.  `late` gives, for each
evaluation of the condition in turn, the listener invocations made since the previous one; when
it runs out no further invocation is made.  `none` is a `DDS_FATAL` reached in the listener. -/
def exportListener (payloadSize : Nat) :
    List (List PubWake) → Nat → PubState → Option (List Row × PubState)
  | [], i, s =>
    some (exportLoop payloadSize s.round_trip (s.round_trip.count - i) i s.sample_count,
      { s with sample_count := (s.sample_count + (s.round_trip.count - i)) % UINT32_RANGE })
  | calls :: rest, i, s =>
    match runCallbacks calls s with
    | none => none
    | some s1 =>
      if i < s1.round_trip.count then
        match exportListener payloadSize rest ((i + 1) % ULONG_RANGE)
            { s1 with sample_count := (s1.sample_count + 1) % UINT32_RANGE } with
        | none => none
        | some out =>
          some ({ sample := (s1.sample_count + 1) % UINT32_RANGE
                  payload := payloadSize
                  latency := latencyAt s1.round_trip i } :: out.1, out.2)
      else some ([], s1)

/-- What the outside supplies to the measurement phase: the readings of `dds_time ()` at lines
281, 283 and 287, the return value of `dds_write_ts` at line 284, the events of the loop, and
the listener invocations made during the export (listener mode only). -/
structure MeasureEnv where
  start : Int
  preWrite : Int
  writeStatus : Int
  postWrite : Int
  waits : List WaitEvent
  late : List (List PubWake)

/-- Source lines 280-305 of `pub_main`: reset of the aggregator after the warm-up, first timed
request, measurement loop, export.  The result is the rows written and the final state.  The
reset ends the process when the block is `NULL`.  Without a listener nothing but `pub_main`
touches `round_trip`, and the export is `pub_export` on the state the loop left; with a
listener the export is `exportListener`. -/
def pub_measure (args : latency_args) (env : MeasureEnv) (s : PubState) :
    Run (List Row × PubState) :=
  match exampleResetTimeStats s.round_trip with
  | none => Run.crashed
  | some stats =>
    if env.writeStatus < 0 then Run.fatal
    else
      match measureLoop args env.waits 0
          { s with
            round_trip := stats
            startTime := env.start
            preWriteTime := env.preWrite
            written := s.written ++ [env.preWrite]
            postWriteTime := env.postWrite } with
      | Run.exited s2 =>
        if args.use_listener then
          match exportListener args.payloadSize env.late 0 s2 with
          | none => Run.fatal
          | some out => Run.exited out
        else Run.exited (pub_export args s2)
      | Run.fatal => Run.fatal
      | Run.crashed => Run.crashed
      | Run.blocked => Run.blocked

/-- Number of calls of `pub_data_available` during one iteration of the measurement loop. -/
def wakesOf (args : latency_args) (ev : WaitEvent) : Nat :=
  if args.use_listener then ev.callbacks.length
  else if ev.status ≠ 0 then 1 else 0

/-- An iteration during which no transport call fails. -/
def WaitEvent.sound (ev : WaitEvent) : Prop :=
  0 ≤ ev.status ∧ (ev.wake.take ≠ none ∧ 0 ≤ ev.wake.writeStatus) ∧
    ∀ w ∈ ev.callbacks, w.take ≠ none ∧ 0 ≤ w.writeStatus

/-! ## The Responder (source lines 115-129, 168-194 and 323-384) -/

/-- Modelled from the spec: the instance state in the metadata of a taken sample, declared in
`dds/dds.h`, which is not part of the sources; `notAliveDisposed` is
`DDS_IST_NOT_ALIVE_DISPOSED`, the termination marker of the spec. -/
inductive InstanceState where
  | alive
  | notAliveDisposed
  | notAliveNoWriters
  deriving DecidableEq

/-- One entry of a taken batch: the payload bytes of `sub_data[j]` and the fields of
`sub_info[j]` the Responder reads. -/
structure Sample where
  payload : List Nat
  source_timestamp : Int
  valid_data : Bool
  instance_state : InstanceState
  deriving DecidableEq

/-- One call `dds_write_ts (sub_writer, data, timestamp)`. -/
structure Echo where
  payload : List Nat
  timestamp : Int
  deriving DecidableEq

/-- The Responder's state: `triggered` is `dds_triggered (sub_waitset)` (the STOPPED state of
the spec), `sent` lists the calls of `dds_write_ts` on `sub_writer`, oldest first. -/
structure SubState where
  triggered : Bool
  sent : List Echo
  deriving DecidableEq

/-- What the outside supplies to one call of `sub_data_available`: the result of `dds_take`
(`none` for a negative return value, otherwise the batch taken) and the return value of the
`dds_write_ts` made for the sample at each index of the batch. -/
structure SubWake where
  take : Option (List Sample)
  writeStatus : Nat → Int

/-- Source line 189: the sample is written back as taken, with its own source timestamp. -/
def echoOf (x : Sample) : Echo :=
  { payload := x.payload, timestamp := x.source_timestamp }

/-- Source lines 175-193: the loop over the batch, entered at index `j` with the samples from
index `j` on still to be looked at. -/
def subLoop (writeStatus : Nat → Int) : List Sample → Nat → SubState → Option SubState
  | [], _, s => some s
  | x :: rest, j, s =>
    if s.triggered then some s
    else if x.instance_state = InstanceState.notAliveDisposed then
      some { s with triggered := true }
    else if x.valid_data then
      if writeStatus j < 0 then none
      else subLoop writeStatus rest (j + 1) { s with sent := s.sent ++ [echoOf x] }
    else subLoop writeStatus rest (j + 1) s

/-- Source lines 168-194. -/
def sub_data_available (w : SubWake) (s : SubState) : Option SubState :=
  match w.take with
  | none => none
  | some batch => subLoop w.writeStatus batch 0 s

/-- What happens around one call of `dds_waitset_wait` in `sub_main`: whether SIGINT is delivered
(`sub_CtrlHandler` sets the trigger), the listener invocations made by the transport meanwhile
(listener mode only), the return value of the wait, and what the outside supplies to the call of
`sub_data_available` the loop itself may make. -/
structure SubEvent where
  sigint : Bool
  callbacks : List SubWake
  status : Int
  wake : SubWake

/-- Successive listener invocations of the Responder, stopping at the first `DDS_FATAL`. -/
def runSubCallbacks : List SubWake → SubState → Option SubState
  | [], s => some s
  | w :: rest, s =>
    match sub_data_available w s with
    | none => none
    | some s1 => runSubCallbacks rest s1

/-- Source lines 365-374: the body of the loop of `sub_main`. -/
def subStep (use_listener : Bool) (ev : SubEvent) (s : SubState) : Option SubState :=
  let s1 := if ev.sigint then { s with triggered := true } else s
  match (if use_listener then runSubCallbacks ev.callbacks s1 else some s1) with
  | none => none
  | some s2 =>
    if ev.status < 0 then none
    else if use_listener = false then sub_data_available ev.wake s2
    else some s2

/-- Source lines 363-375: the loop of `sub_main`. -/
def sub_main_loop (use_listener : Bool) : List SubEvent → SubState → Run SubState
  | [], s => if s.triggered then Run.exited s else Run.blocked
  | ev :: rest, s =>
    if s.triggered then Run.exited s
    else
      match subStep use_listener ev s with
      | none => Run.fatal
      | some s1 => sub_main_loop use_listener rest s1

/-- A sample that is a termination marker. -/
def Sample.isMarker (x : Sample) : Bool :=
  decide (x.instance_state = InstanceState.notAliveDisposed)

/-- The echoes owed for a batch: one for every sample with valid data located before the first
termination marker, in the order of the batch. -/
def echoesOwed (batch : List Sample) : List Echo :=
  ((batch.takeWhile (fun x => !x.isMarker)).filter (fun x => x.valid_data)).map echoOf

/-! ## Argument handling of `main` (source lines 88-96 and 550-628) -/

/-- The C library's `isspace` in the "C" locale. -/
def isspace (c : Char) : Bool :=
  decide (c.toNat = 32) || (decide (9 ≤ c.toNat) && decide (c.toNat ≤ 13))

/-- Value of the longest prefix of decimal digits, most significant first. -/
def digitsValue (cs : List Char) : Nat :=
  (cs.takeWhile Char.isDigit).foldl (fun acc c => acc * 10 + (c.toNat - 48)) 0

/-- The C library's `atol` with a 64-bit `long`: leading white space, an optional sign, then
decimal digits up to the first other character; a value outside the range of `long` is
clamped to it, as `strtol` does. -/
def atol (s : String) : Int :=
  let cs := s.toList.dropWhile isspace
  let v : Int :=
    match cs with
    | [] => 0
    | c :: rest =>
      if c.toNat = 45 then -(digitsValue rest : Int)
      else if c.toNat = 43 then (digitsValue rest : Int)
      else (digitsValue cs : Int)
  if v < -(2 ^ 63 : Int) then -(2 ^ 63 : Int)
  else if v > (2 ^ 63 : Int) - 1 then (2 ^ 63 : Int) - 1
  else v

/-- Source line 134: the initial content of `output_file`. -/
def DEFAULT_OUTPUT_FILE : String := "cyclone_raw_latency.csv"

/-- Source line 575: the ceiling `100 * 1048576` on the payload size. -/
def PAYLOAD_CEILING : Nat := 100 * 1048576

/-- What `main` goes on to do with its arguments.  `usageExit` is the call of `usage ()` at
line 594, which prints and leaves with `EXIT_FAILURE` before the output file is opened and
before either worker is started; `run` is lines 596-627: the header is written and the
Initiator and the Responder are started with the given arguments; `sendQuit` is the action the
usage text (line 92) and the spec describe for `quit`: a termination marker is sent to the
Responder and no measurement is run. -/
inductive MainAction where
  | usageExit
  | run (args : latency_args) (output_file : String)
  | sendQuit
  deriving DecidableEq

/-- Source lines 550-627: from the argument vector (`argv[0]` included) to what `main` does. -/
def main (argv : List String) : MainAction :=
  let argc : Int := (argv.length : Int)
  let use_listener : Bool := decide (argc > 1) && (argv.getD 1 "" == "-l")
  let argidx : Nat := if use_listener then 2 else 1
  let left : Int := argc - (argidx : Int)
  let payloadSize : Nat :=
    if left ≥ 1 then (atol (argv.getD argidx "") % (UINT32_RANGE : Int)).toNat else 0
  let invalidargs : Bool :=
    decide (left = 0) || (decide (left ≥ 1) && decide (payloadSize > PAYLOAD_CEILING))
  let numSamples : Nat :=
    if left ≥ 2 then (atol (argv.getD (argidx + 1) "") % (ULONG_RANGE : Int)).toNat else 0
  let timeOut : Int :=
    if left ≥ 3 then atol (argv.getD (argidx + 2) "") else 0
  let output_file : String :=
    if left ≥ 4 then (argv.getD (argidx + 3) "").take 100 else DEFAULT_OUTPUT_FILE
  if invalidargs ||
      (decide (left = 1) && (argv.getD argidx "" == "-h" || argv.getD argidx "" == "--help")) then
    MainAction.usageExit
  else
    MainAction.run
      { payloadSize := payloadSize, numSamples := numSamples, timeOut := timeOut,
        use_listener := use_listener } output_file

/-- The storage of an aggregator as `exampleInitTimeStats` sets it up: capacity
`TIME_STATS_SIZE_INCREMENT`, at most that many stored values, and a block, when there is one,
of exactly that many cells. -/
structure Sized (s : ExampleTimeStats) : Prop where
  max_eq : s.valuesMax = TIME_STATS_SIZE_INCREMENT
  size_le : s.valuesSize ≤ s.valuesMax
  block_len : ∀ cells, s.values = some cells → cells.length = s.valuesMax

/-- An allocator that answers every request, fresh cells holding zero. -/
def zeroAllocator : Allocator := ⟨true, fun _ => 0⟩

/-- Relation between the Initiator's state before and after `k` calls of
`pub_data_available` and nothing else that touches the fields named. -/
structure Advances (k : Nat) (s r : PubState) : Prop where
  count_eq : r.round_trip.count = (s.round_trip.count + k) % ULONG_RANGE
  triggered_eq : r.triggered = s.triggered
  elapsed_eq : r.elapsed = s.elapsed
  sample_count_eq : r.sample_count = s.sample_count

/-- Number of calls of `pub_data_available` during the first `n` iterations of the loop. -/
def totalWakes (args : latency_args) (evs : List WaitEvent) (n : Nat) : Nat :=
  ((evs.take n).map (wakesOf args)).sum

/-- An iteration of the measurement loop in which the wait reports data and the take returns one
response stamped `stamp`, read at time `now`; no listener invocation, no SIGINT. -/
def dataEvent (stamp now : Int) : WaitEvent :=
  { sigint := false
    callbacks := []
    status := 1
    wake := ⟨some [stamp], now, now, 0, now, zeroAllocator⟩ }

/-- An iteration of the measurement loop in which the wait times out (return value 0). -/
def timeoutEvent : WaitEvent :=
  { sigint := false
    callbacks := []
    status := 0
    wake := ⟨some [], 0, 0, 0, 0, zeroAllocator⟩ }

/-- What the outside supplies to a call of `pub_data_available` whose take returns one response
stamped `stamp`, the clock reading `now` throughout and the write succeeding. -/
def responseWake (stamp now : Int) : PubWake :=
  ⟨some [stamp], now, now, 0, now, zeroAllocator⟩

/-- What the outside supplies to a call of `pub_data_available` whose take returns no sample
(return value 0), the clock reading `now` throughout and the write succeeding. -/
def emptyWake (now : Int) : PubWake :=
  ⟨some [], now, now, 0, now, zeroAllocator⟩

/-! ## Lemmas on the aggregator -/

theorem recordAll_nil (a : Allocator) (s : ExampleTimeStats) : recordAll a s [] = s := rfl

theorem recordAll_snoc (a : Allocator) (s : ExampleTimeStats) (ts : List Int) (t : Int) :
    recordAll a s (ts ++ [t]) = exampleAddTimingToTimeStats a (recordAll a s ts) t := by
  simp [recordAll, List.foldl_append]

theorem storeTiming_stats (s : ExampleTimeStats) (t : Int) :
    (storeTiming s t).valuesMax = s.valuesMax := by
  unfold storeTiming
  split
  · split <;> rfl
  · rfl

theorem add_count (a : Allocator) (s : ExampleTimeStats) (t : Int) :
    (exampleAddTimingToTimeStats a s t).count = (s.count + 1) % ULONG_RANGE := rfl

theorem add_average (a : Allocator) (s : ExampleTimeStats) (t : Int) :
    (exampleAddTimingToTimeStats a s t).average =
      ((s.count : ℚ) * s.average + (t : ℚ)) / (((s.count + 1) % ULONG_RANGE : Nat) : ℚ) := rfl

theorem add_min (a : Allocator) (s : ExampleTimeStats) (t : Int) :
    (exampleAddTimingToTimeStats a s t).min =
      if s.count = 0 ∨ t < s.min then t else s.min := rfl

theorem add_max (a : Allocator) (s : ExampleTimeStats) (t : Int) :
    (exampleAddTimingToTimeStats a s t).max =
      if s.count = 0 ∨ t > s.max then t else s.max := rfl

theorem statsOf_recordAll (a : Allocator) (s0 : ExampleTimeStats)
    (hc : s0.count = 0) (ha : s0.average = 0) (ts : List Int) (hlen : ts.length < ULONG_RANGE) :
    StatsOf (recordAll a s0 ts) ts := by
  induction ts using List.reverseRecOn with
  | nil =>
    refine ⟨by simpa using hc, by simp [recordAll_nil, ha], ?_, ?_, ?_, ?_⟩ <;> intro h <;>
      exact absurd rfl h
  | append_singleton ts t ih =>
    have hlen1 : ts.length + 1 < ULONG_RANGE := by simpa using hlen
    have ih := ih (by omega)
    have hmod : (ts.length + 1) % ULONG_RANGE = ts.length + 1 := Nat.mod_eq_of_lt hlen1
    rw [recordAll_snoc]
    refine ⟨?_, ?_, ?_, ?_, ?_, ?_⟩
    · rw [add_count, ih.count_eq, hmod]; simp
    · rw [add_average, ih.count_eq, hmod]
      have hpos : ((ts.length + 1 : Nat) : ℚ) ≠ 0 := by positivity
      simp only [List.length_append, List.length_singleton, List.map_append, List.sum_append,
        List.map_cons, List.map_nil, List.sum_cons, List.sum_nil, add_zero]
      rw [div_mul_cancel₀ _ hpos, mul_comm, ih.avg_eq]
    · intro _
      rw [add_min, ih.count_eq]
      by_cases hnil : ts = []
      · subst hnil; simp
      · have hm := ih.min_mem hnil
        have : ts.length ≠ 0 := by simpa using hnil
        split_ifs with h
        · simp
        · simp [hm]
    · intro _ u hu
      rw [add_min, ih.count_eq]
      by_cases hnil : ts = []
      · subst hnil
        simp at hu
        simp [hu]
      · have hle := ih.min_le hnil
        have hne : ts.length ≠ 0 := by simpa using hnil
        rcases List.mem_append.mp hu with hu | hu
        · have := hle u hu
          split_ifs with h
          · rcases h with h | h
            · exact absurd h hne
            · omega
          · exact this
        · have hut : u = t := by simpa using hu
          subst hut
          split_ifs with h
          · exact le_refl _
          · push_neg at h
            exact h.2
    · intro _
      rw [add_max, ih.count_eq]
      by_cases hnil : ts = []
      · subst hnil; simp
      · have hm := ih.max_mem hnil
        split_ifs with h
        · simp
        · simp [hm]
    · intro _ u hu
      rw [add_max, ih.count_eq]
      by_cases hnil : ts = []
      · subst hnil
        simp at hu
        simp [hu]
      · have hle := ih.le_max hnil
        have hne : ts.length ≠ 0 := by simpa using hnil
        rcases List.mem_append.mp hu with hu | hu
        · have := hle u hu
          split_ifs with h
          · rcases h with h | h
            · exact absurd h hne
            · omega
          · exact this
        · have hut : u = t := by simpa using hu
          subst hut
          split_ifs with h
          · exact le_refl _
          · push_neg at h
            exact h.2

/-! ## Lemmas on the storage of the aggregator -/

theorem cellsOfRequest_increment :
    cellsOfRequest TIME_STATS_SIZE_INCREMENT = TIME_STATS_SIZE_INCREMENT := by
  norm_num [cellsOfRequest, TIME_STATS_SIZE_INCREMENT, SIZEOF_DDS_TIME, ULONG_RANGE]

theorem take_succ_set (cells : List Int) (n : Nat) (t : Int) (h : n < cells.length) :
    (cells.set n t).take (n + 1) = cells.take n ++ [t] := by
  have hsame : (cells.set n t).take n = cells.take n := by
    rw [List.set_take]
    apply List.set_eq_of_length_le
    simp
  rw [List.take_succ, List.getElem?_set_self h, hsame]
  rfl

theorem sized_init (a : Allocator) : Sized (exampleInitTimeStats a) := by
  refine ⟨rfl, Nat.zero_le _, ?_⟩
  intro cells h
  simp only [exampleInitTimeStats, malloc] at h
  split at h
  · have h2 := Option.some.inj h
    rw [← h2, List.length_map, List.length_range, cellsOfRequest_increment]
    rfl
  · exact absurd h (by simp)

theorem reset_of_block (s : ExampleTimeStats) (cells : List Int) (h : s.values = some cells) :
    exampleResetTimeStats s = some
      { values := some (memsetZero cells s.valuesMax)
        valuesSize := 0
        valuesMax := s.valuesMax
        average := 0
        min := 0
        max := 0
        count := 0 } := by
  simp only [exampleResetTimeStats, h]

theorem reset_of_null (s : ExampleTimeStats) (h : s.values = none) :
    exampleResetTimeStats s = none := by
  simp only [exampleResetTimeStats, h]

theorem reset_block (s r : ExampleTimeStats) (h : exampleResetTimeStats s = some r) :
    ∃ cells, s.values = some cells ∧ r =
      { values := some (memsetZero cells s.valuesMax)
        valuesSize := 0
        valuesMax := s.valuesMax
        average := 0
        min := 0
        max := 0
        count := 0 } := by
  cases hv : s.values with
  | none => rw [reset_of_null s hv] at h; exact absurd h (by simp)
  | some cells =>
    rw [reset_of_block s cells hv] at h
    exact ⟨cells, rfl, (Option.some.inj h).symm⟩

theorem length_memsetZero (cells : List Int) (n : Nat) :
    (memsetZero cells n).length = cells.length := by
  simp only [memsetZero, List.length_append, List.length_replicate, List.length_drop]
  omega

theorem sized_reset (s r : ExampleTimeStats) (h : exampleResetTimeStats s = some r)
    (hs : Sized s) : Sized r := by
  obtain ⟨old, hold, rfl⟩ := reset_block s r h
  refine ⟨hs.max_eq, Nat.zero_le _, ?_⟩
  intro cells hc
  have h2 : memsetZero old s.valuesMax = cells := Option.some.inj hc
  rw [← h2, length_memsetZero]
  exact hs.block_len old hold

theorem growIfFull_of_le (a : Allocator) (s : ExampleTimeStats) (h : s.valuesSize ≤ s.valuesMax) :
    growIfFull a s = s := by
  unfold growIfFull
  rw [if_neg (by omega)]

theorem add_values (a : Allocator) (s : ExampleTimeStats) (t : Int) :
    (exampleAddTimingToTimeStats a s t).values = (storeTiming (growIfFull a s) t).values := rfl

theorem add_valuesSize (a : Allocator) (s : ExampleTimeStats) (t : Int) :
    (exampleAddTimingToTimeStats a s t).valuesSize =
      (storeTiming (growIfFull a s) t).valuesSize := rfl

theorem add_valuesMax (a : Allocator) (s : ExampleTimeStats) (t : Int) :
    (exampleAddTimingToTimeStats a s t).valuesMax =
      (storeTiming (growIfFull a s) t).valuesMax := rfl

theorem sized_add (a : Allocator) (s : ExampleTimeStats) (t : Int) (hs : Sized s) :
    Sized (exampleAddTimingToTimeStats a s t) := by
  have hg := growIfFull_of_le a s hs.size_le
  refine ⟨?_, ?_, ?_⟩
  · rw [add_valuesMax, hg, storeTiming_stats]; exact hs.max_eq
  · rw [add_valuesMax, add_valuesSize, hg, storeTiming_stats]
    unfold storeTiming
    split
    · split
      · show s.valuesSize + 1 ≤ s.valuesMax
        omega
      · exact hs.size_le
    · exact hs.size_le
  · intro cells h
    rw [add_valuesMax, hg, storeTiming_stats]
    rw [add_values, hg] at h
    unfold storeTiming at h
    split at h
    · rename_i old hold
      split at h
      · simp only [Option.some.injEq] at h
        subst h
        rw [List.length_set]
        exact hs.block_len old hold
      · exact hs.block_len cells h
    · exact hs.block_len cells h

theorem sized_recordAll (a : Allocator) (ts : List Int) :
    ∀ s : ExampleTimeStats, Sized s → Sized (recordAll a s ts) := by
  induction ts with
  | nil => intro s hs; exact hs
  | cons t ts ih =>
    intro s hs
    exact ih _ (sized_add a s t hs)

theorem isSome_add (a : Allocator) (s : ExampleTimeStats) (t : Int) (hs : Sized s) :
    (exampleAddTimingToTimeStats a s t).values.isSome = s.values.isSome := by
  rw [add_values, growIfFull_of_le a s hs.size_le]
  unfold storeTiming
  split
  · rename_i old hold
    split
    · simp [hold]
    · rfl
  · rfl

theorem history_length (s : ExampleTimeStats) (hs : Sized s) (hv : s.values.isSome = true) :
    (history s).length = s.valuesSize := by
  obtain ⟨cells, hc⟩ := Option.isSome_iff_exists.mp hv
  have hl := hs.block_len cells hc
  have := hs.size_le
  simp only [history, hc, Option.getD_some, List.length_take]
  omega

theorem history_add (a : Allocator) (s : ExampleTimeStats) (t : Int) (hs : Sized s)
    (hv : s.values.isSome = true) :
    history (exampleAddTimingToTimeStats a s t) =
      if s.valuesSize < s.valuesMax then history s ++ [t] else history s := by
  obtain ⟨cells, hc⟩ := Option.isSome_iff_exists.mp hv
  have hl := hs.block_len cells hc
  unfold history
  rw [add_values, add_valuesSize, growIfFull_of_le a s hs.size_le]
  unfold storeTiming
  simp only [hc]
  split
  · rename_i hlt
    simp only [Option.getD_some]
    exact take_succ_set cells s.valuesSize t (by omega)
  · simp only [hc]

theorem isSome_recordAll (a : Allocator) (ts : List Int) :
    ∀ s : ExampleTimeStats, Sized s → (recordAll a s ts).values.isSome = s.values.isSome := by
  induction ts with
  | nil => intro s _; rfl
  | cons t ts ih =>
    intro s hs
    show (recordAll a (exampleAddTimingToTimeStats a s t) ts).values.isSome = _
    rw [ih _ (sized_add a s t hs), isSome_add a s t hs]

theorem valuesMax_recordAll (a : Allocator) (ts : List Int) (s : ExampleTimeStats) (hs : Sized s) :
    (recordAll a s ts).valuesMax = s.valuesMax := by
  rw [(sized_recordAll a ts s hs).max_eq, hs.max_eq]

theorem history_recordAll (a : Allocator) (ts : List Int) :
    ∀ s : ExampleTimeStats, Sized s → s.values.isSome = true →
      history (recordAll a s ts) = (history s ++ ts).take s.valuesMax := by
  induction ts with
  | nil =>
    intro s hs hv
    have hl := history_length s hs hv
    have := hs.size_le
    rw [recordAll_nil, List.append_nil, List.take_of_length_le (by omega)]
  | cons t ts ih =>
    intro s hs hv
    have hl := history_length s hs hv
    have hle := hs.size_le
    have hs1 := sized_add a s t hs
    have hv1 : (exampleAddTimingToTimeStats a s t).values.isSome = true := by
      rw [isSome_add a s t hs]; exact hv
    show history (recordAll a (exampleAddTimingToTimeStats a s t) ts) = _
    rw [ih _ hs1 hv1, history_add a s t hs hv, hs1.max_eq, hs.max_eq]
    split
    · rw [List.append_assoc]; rfl
    · have hm := hs.max_eq
      have hfull : (history s).length = TIME_STATS_SIZE_INCREMENT := by omega
      rw [List.take_append_of_le_length (by omega), List.take_append_of_le_length (by omega)]

theorem isSome_reset (s r : ExampleTimeStats) (h : exampleResetTimeStats s = some r) :
    r.values.isSome = true ∧ s.values.isSome = true := by
  obtain ⟨old, hold, rfl⟩ := reset_block s r h
  exact ⟨rfl, by rw [hold]; rfl⟩

theorem reset_fields (s r : ExampleTimeStats) (h : exampleResetTimeStats s = some r) :
    r.count = 0 ∧ r.average = 0 ∧ r.min = 0 ∧ r.max = 0 ∧ r.valuesSize = 0 ∧
      r.valuesMax = s.valuesMax := by
  obtain ⟨old, -, rfl⟩ := reset_block s r h
  exact ⟨rfl, rfl, rfl, rfl, rfl, rfl⟩

theorem count_recordAll (a : Allocator) (s0 : ExampleTimeStats) (hc : s0.count = 0)
    (ts : List Int) (hlen : ts.length < ULONG_RANGE) : (recordAll a s0 ts).count = ts.length := by
  induction ts using List.reverseRecOn with
  | nil => simpa using hc
  | append_singleton ts t ih =>
    have hlen1 : ts.length + 1 < ULONG_RANGE := by simpa using hlen
    rw [recordAll_snoc, add_count, ih (by omega), Nat.mod_eq_of_lt hlen1]
    simp

/-! ## Lemmas on the export step -/

theorem length_exportLoop (p : Nat) (s : ExampleTimeStats) (todo : Nat) :
    ∀ i sc : Nat, (exportLoop p s todo i sc).length = todo := by
  induction todo with
  | zero => intro i sc; rfl
  | succ n ih => intro i sc; simp [exportLoop, ih]

theorem getElem?_exportLoop (p : Nat) (s : ExampleTimeStats) (todo : Nat) :
    ∀ i sc k : Nat, k < todo →
      (exportLoop p s todo i sc)[k]? =
        some ⟨(sc + (k + 1)) % UINT32_RANGE, p, latencyAt s (i + k)⟩ := by
  induction todo with
  | zero => intro i sc k hk; omega
  | succ n ih =>
    intro i sc k hk
    cases k with
    | zero => simp [exportLoop]
    | succ k =>
      simp only [exportLoop, List.getElem?_cons_succ]
      rw [ih (i + 1) _ k (by omega)]
      have h1 : ((sc + 1) % UINT32_RANGE + (k + 1)) % UINT32_RANGE
          = (sc + (k + 1 + 1)) % UINT32_RANGE := by
        simp only [UINT32_RANGE]
        omega
      have h2 : i + 1 + k = i + (k + 1) := by omega
      rw [h1, h2]

theorem length_exportRows (p sc : Nat) (s : ExampleTimeStats) :
    (exportRows p sc s).length = s.count :=
  length_exportLoop p s s.count 0 sc

theorem getElem?_exportRows (p sc : Nat) (s : ExampleTimeStats) (k : Nat) (hk : k < s.count) :
    (exportRows p sc s)[k]? = some ⟨(sc + (k + 1)) % UINT32_RANGE, p, latencyAt s k⟩ := by
  unfold exportRows
  rw [getElem?_exportLoop p s s.count 0 sc k hk, Nat.zero_add]

theorem latencyAt_of_block (s : ExampleTimeStats) (hs : Sized s) (hv : s.values.isSome = true)
    (k : Nat) (hk : TIME_STATS_SIZE_INCREMENT ≤ k) : latencyAt s k = none := by
  obtain ⟨cells, hc⟩ := Option.isSome_iff_exists.mp hv
  have hl := hs.block_len cells hc
  have hm := hs.max_eq
  unfold latencyAt
  rw [hc, Option.getD_some, List.getElem?_eq_none (by omega)]
  rfl

theorem exportRows_within_capacity (a : Allocator) (s0 : ExampleTimeStats) (hs : Sized s0)
    (hv : s0.values.isSome = true) (h0 : s0.valuesSize = 0) (hc : s0.count = 0)
    (ts : List Int) (hlen : ts.length ≤ TIME_STATS_SIZE_INCREMENT) (p sc k : Nat)
    (hk : k < ts.length) :
    (exportRows p sc (recordAll a s0 ts))[k]? =
      some ⟨(sc + (k + 1)) % UINT32_RANGE, p,
        (ts[k]?).map (fun v : Int => ((v : ℚ) / (DDS_NSECS_IN_USEC : ℚ)) / 2)⟩ := by
  have hsr := sized_recordAll a ts s0 hs
  have hvr := (isSome_recordAll a ts s0 hs).trans hv
  have hU : TIME_STATS_SIZE_INCREMENT < ULONG_RANGE := by
    norm_num [TIME_STATS_SIZE_INCREMENT, ULONG_RANGE]
  have hcount := count_recordAll a s0 hc ts (by omega)
  have hh := history_recordAll a ts s0 hs hv
  have hh0 : history s0 = [] := by
    unfold history
    rw [h0]
    exact List.take_zero _
  rw [hh0, List.nil_append, hs.max_eq, List.take_of_length_le hlen] at hh
  have hsize : (recordAll a s0 ts).valuesSize = ts.length := by
    rw [← history_length _ hsr hvr, hh]
  rw [getElem?_exportRows p sc _ k (by rw [hcount]; exact hk)]
  have hcell : ((recordAll a s0 ts).values.getD [])[k]? = ts[k]? := by
    have h1 : (history (recordAll a s0 ts))[k]? = ts[k]? := by rw [hh]
    unfold history at h1
    rw [List.getElem?_take_of_lt (by rw [hsize]; exact hk)] at h1
    exact h1
  unfold latencyAt
  rw [hcell]

/-! ## Lemmas on the Initiator -/

theorem advances_refl (s : PubState) (h : s.round_trip.count < ULONG_RANGE) : Advances 0 s s :=
  ⟨by rw [Nat.add_zero, Nat.mod_eq_of_lt h], rfl, rfl, rfl⟩

theorem advances_trans {j k : Nat} {s r q : PubState} (h1 : Advances j s r)
    (h2 : Advances k r q) : Advances (j + k) s q := by
  refine ⟨?_, h2.triggered_eq.trans h1.triggered_eq, h2.elapsed_eq.trans h1.elapsed_eq,
    h2.sample_count_eq.trans h1.sample_count_eq⟩
  rw [h2.count_eq, h1.count_eq, Nat.mod_add_mod, Nat.add_assoc]

theorem pub_data_available_sound (w : PubWake) (s : PubState) (h1 : w.take ≠ none)
    (h2 : 0 ≤ w.writeStatus) :
    ∃ r, pub_data_available w s = some r ∧ Advances 1 s r := by
  cases ht : w.take with
  | none => exact absurd ht h1
  | some stamps =>
    simp only [pub_data_available, ht]
    rw [if_neg (by omega)]
    exact ⟨_, rfl, ⟨rfl, rfl, rfl, rfl⟩⟩

theorem runCallbacks_sound (ws : List PubWake) :
    ∀ s : PubState, s.round_trip.count < ULONG_RANGE →
      (∀ w ∈ ws, w.take ≠ none ∧ 0 ≤ w.writeStatus) →
      ∃ r, runCallbacks ws s = some r ∧ Advances ws.length s r := by
  induction ws with
  | nil => intro s hc _; exact ⟨s, rfl, advances_refl s hc⟩
  | cons w rest ih =>
    intro s hc h
    obtain ⟨hw1, hw2⟩ := h w (List.mem_cons_self _ _)
    obtain ⟨r1, hr1, ha1⟩ := pub_data_available_sound w s hw1 hw2
    have hc1 : r1.round_trip.count < ULONG_RANGE := by
      rw [ha1.count_eq]
      exact Nat.mod_lt _ (by norm_num [ULONG_RANGE])
    obtain ⟨r, hr, ha⟩ := ih r1 hc1 (fun w hw => h w (List.mem_cons_of_mem _ hw))
    refine ⟨r, ?_, ?_⟩
    · simp only [runCallbacks, hr1]
      exact hr
    · have := advances_trans ha1 ha
      rw [List.length_cons, Nat.add_comm]
      exact this

theorem measureStep_sound (args : latency_args) (ev : WaitEvent) (s : PubState)
    (hc : s.round_trip.count < ULONG_RANGE) (hsig : ev.sigint = false) (hs : ev.sound) :
    ∃ r, measureStep args ev s = some r ∧ Advances (wakesOf args ev) s r := by
  obtain ⟨hst, ⟨hw1, hw2⟩, hcb⟩ := hs
  cases hl : args.use_listener with
  | true =>
    obtain ⟨r, hr, ha⟩ := runCallbacks_sound ev.callbacks s hc hcb
    refine ⟨r, ?_, ?_⟩
    · simp only [measureStep, hsig, hl, Bool.false_eq_true, if_false, if_true, hr]
      rw [if_neg (by omega)]
      simp
    · simpa [wakesOf, hl] using ha
  | false =>
    by_cases h0 : ev.status = 0
    · refine ⟨s, ?_, ?_⟩
      · simp [measureStep, hsig, hl, h0]
      · simpa [wakesOf, hl, h0] using advances_refl s hc
    · obtain ⟨r, hr, ha⟩ := pub_data_available_sound ev.wake s hw1 hw2
      refine ⟨r, ?_, ?_⟩
      · simp only [measureStep, hsig, hl, Bool.false_eq_true, if_false]
        rw [if_neg (by omega), if_pos ⟨h0, trivial⟩]
        exact hr
      · simpa [wakesOf, hl, h0] using ha

theorem count_lt_of_advances {k : Nat} {s r : PubState} (h : Advances k s r) :
    r.round_trip.count < ULONG_RANGE := by
  rw [h.count_eq]
  exact Nat.mod_lt _ (by norm_num [ULONG_RANGE])

theorem measureLoop_budget (args : latency_args) (ht : args.timeOut = 0)
    (hn64 : args.numSamples < ULONG_RANGE) (evs : List WaitEvent) :
    ∀ (i : Nat) (s : PubState), i ≤ args.numSamples → 0 < args.numSamples →
      args.numSamples - i ≤ evs.length →
      s.round_trip.count < ULONG_RANGE → s.triggered = false →
      (∀ ev ∈ evs, ev.sigint = false) → (∀ ev ∈ evs, ev.sound) →
      ∃ r, measureLoop args evs i s = Run.exited r ∧
        Advances (totalWakes args evs (args.numSamples - i)) s r := by
  induction evs with
  | nil =>
    intro i s hi hn hlen hc htr _ _
    have hin : i = args.numSamples := by simp only [List.length_nil] at hlen; omega
    refine ⟨s, ?_, ?_⟩
    · have hcond : loopCond args i s = false := by
        simp [loopCond, htr, ht, hin]
        omega
      simp [measureLoop, hcond]
    · simpa [totalWakes] using advances_refl s hc
  | cons ev rest ih =>
    intro i s hi hn hlen hc htr hsig hs
    by_cases hin : i = args.numSamples
    · refine ⟨s, ?_, ?_⟩
      · have hcond : loopCond args i s = false := by
          simp [loopCond, htr, ht, hin]
          omega
        simp [measureLoop, hcond]
      · simpa [totalWakes, hin] using advances_refl s hc
    · have hlt : i < args.numSamples := by omega
      have hcond : loopCond args i s = true := by
        simp [loopCond, htr, ht, hlt]
      obtain ⟨r1, hr1, ha1⟩ := measureStep_sound args ev s hc
        (hsig ev (List.mem_cons_self _ _)) (hs ev (List.mem_cons_self _ _))
      have hmod : (i + 1) % ULONG_RANGE = i + 1 := Nat.mod_eq_of_lt (by omega)
      obtain ⟨r, hr, ha⟩ := ih (i + 1) r1 (by omega) hn
        (by simp only [List.length_cons] at hlen; omega)
        (count_lt_of_advances ha1) (ha1.triggered_eq.trans htr)
        (fun e he => hsig e (List.mem_cons_of_mem _ he))
        (fun e he => hs e (List.mem_cons_of_mem _ he))
      refine ⟨r, ?_, ?_⟩
      · simp only [measureLoop, hcond, if_true, hr1, hmod]
        exact hr
      · have hsplit : args.numSamples - i = (args.numSamples - (i + 1)) + 1 := by omega
        have htot : totalWakes args (ev :: rest) (args.numSamples - i)
            = wakesOf args ev + totalWakes args rest (args.numSamples - (i + 1)) := by
          rw [hsplit]
          simp [totalWakes]
        rw [htot]
        exact advances_trans ha1 ha

theorem measureLoop_time_budget (args : latency_args) (hT : 0 < args.timeOut)
    (hN : args.numSamples = 0) (evs : List WaitEvent) :
    ∀ (i : Nat) (s : PubState), s.round_trip.count < ULONG_RANGE → s.elapsed = 0 →
      s.triggered = false → (∀ ev ∈ evs, ev.sigint = false) → (∀ ev ∈ evs, ev.sound) →
      measureLoop args evs i s = Run.blocked := by
  induction evs with
  | nil =>
    intro i s _ hel htr _ _
    have hcond : loopCond args i s = true := by
      simp [loopCond, htr, hN, hel]
      exact Or.inr hT
    simp [measureLoop, hcond]
  | cons ev rest ih =>
    intro i s hc hel htr hsig hs
    have hcond : loopCond args i s = true := by
      simp [loopCond, htr, hN, hel]
      exact Or.inr hT
    obtain ⟨r1, hr1, ha1⟩ := measureStep_sound args ev s hc
      (hsig ev (List.mem_cons_self _ _)) (hs ev (List.mem_cons_self _ _))
    simp only [measureLoop, hcond, if_true, hr1]
    exact ih _ r1 (count_lt_of_advances ha1) (ha1.elapsed_eq.trans hel)
      (ha1.triggered_eq.trans htr)
      (fun e he => hsig e (List.mem_cons_of_mem _ he))
      (fun e he => hs e (List.mem_cons_of_mem _ he))

theorem payload_exportLoop (p : Nat) (s : ExampleTimeStats) (todo : Nat) :
    ∀ (i sc : Nat), ∀ row ∈ exportLoop p s todo i sc, row.payload = p := by
  induction todo with
  | zero => intro i sc row h; simp [exportLoop] at h
  | succ n ih =>
    intro i sc row h
    simp only [exportLoop, List.mem_cons] at h
    rcases h with h | h
    · rw [h]
    · exact ih _ _ row h

theorem sample_exportLoop (p : Nat) (s : ExampleTimeStats) (todo : Nat) :
    ∀ (i sc : Nat), sc + todo < UINT32_RANGE →
      (exportLoop p s todo i sc).map Row.sample = List.range' (sc + 1) todo := by
  induction todo with
  | zero => intro i sc _; rfl
  | succ n ih =>
    intro i sc h
    have hmod : (sc + 1) % UINT32_RANGE = sc + 1 := Nat.mod_eq_of_lt (by omega)
    simp only [exportLoop, List.map_cons, hmod, List.range'_succ]
    rw [ih (i + 1) (sc + 1) (by omega)]

theorem sum_map_eq_length {α : Type} (f : α → Nat) (l : List α) (h : ∀ x ∈ l, f x = 1) :
    (l.map f).sum = l.length := by
  induction l with
  | nil => rfl
  | cons x xs ih =>
    rw [List.map_cons, List.sum_cons, List.length_cons, h x (List.mem_cons_self _ _),
      ih (fun y hy => h y (List.mem_cons_of_mem _ hy))]
    omega

theorem dataEvent_sound (stamp now : Int) : (dataEvent stamp now).sound := by
  refine ⟨by simp [dataEvent], ⟨by simp [dataEvent], by simp [dataEvent]⟩, ?_⟩
  intro w hw
  simp [dataEvent] at hw

theorem poll_rows_per_data_wait (args : latency_args) (env : MeasureEnv) (s : PubState)
    (hpoll : args.use_listener = false) (hblock : s.round_trip.values.isSome = true)
    (hn : 0 < args.numSamples) (hn64 : args.numSamples < ULONG_RANGE) (ht : args.timeOut = 0)
    (hstop : s.triggered = false ∧ ∀ ev ∈ env.waits, ev.sigint = false)
    (hsound : 0 ≤ env.writeStatus ∧ ∀ ev ∈ env.waits, ev.sound)
    (hlen : args.numSamples ≤ env.waits.length)
    (hsc : s.sample_count = 0)
    (hcap : totalWakes args env.waits args.numSamples ≤ TIME_STATS_SIZE_INCREMENT) :
    ∃ rows r, pub_measure args env s = Run.exited (rows, r) ∧
      rows.length = totalWakes args env.waits args.numSamples ∧
      (∀ row ∈ rows, row.payload = args.payloadSize) ∧
      rows.map Row.sample = List.range' 1 rows.length ∧
      ((∀ ev ∈ env.waits.take args.numSamples, ev.status ≠ 0) →
        rows.length = args.numSamples) := by
  obtain ⟨cells, hcells⟩ := Option.isSome_iff_exists.mp hblock
  obtain ⟨stats, hreset⟩ : ∃ stats, exampleResetTimeStats s.round_trip = some stats :=
    ⟨_, reset_of_block _ cells hcells⟩
  obtain ⟨hc0, -⟩ := reset_fields _ _ hreset
  obtain ⟨r, hr, ha⟩ := measureLoop_budget args ht hn64 env.waits 0
    { s with
      round_trip := stats
      startTime := env.start
      preWriteTime := env.preWrite
      written := s.written ++ [env.preWrite]
      postWriteTime := env.postWrite }
    (Nat.zero_le _) hn (by omega)
    (by show stats.count < ULONG_RANGE; rw [hc0]; norm_num [ULONG_RANGE]) hstop.1
    hstop.2 hsound.2
  have hcount : r.round_trip.count = totalWakes args env.waits args.numSamples := by
    have h := ha.count_eq
    simp only [Nat.sub_zero] at h
    rw [h]
    show (stats.count + _) % ULONG_RANGE = _
    rw [hc0, Nat.zero_add]
    apply Nat.mod_eq_of_lt
    have : TIME_STATS_SIZE_INCREMENT < ULONG_RANGE := by
      norm_num [TIME_STATS_SIZE_INCREMENT, ULONG_RANGE]
    omega
  have hsc2 : r.sample_count = 0 := ha.sample_count_eq.trans hsc
  have hlen2 : (exportRows args.payloadSize r.sample_count r.round_trip).length
      = totalWakes args env.waits args.numSamples := by
    rw [length_exportRows, hcount]
  refine ⟨exportRows args.payloadSize r.sample_count r.round_trip,
    { r with sample_count := (r.sample_count + r.round_trip.count) % UINT32_RANGE }, ?_, hlen2,
    ?_, ?_, ?_⟩
  · simp only [pub_measure, hreset]
    rw [if_neg (by omega), hr]
    simp only [hpoll, Bool.false_eq_true, if_false]
    rfl
  · exact payload_exportLoop _ _ _ _ _
  · rw [hlen2, ← hcount, hsc2]
    apply sample_exportLoop
    rw [hcount]
    have : TIME_STATS_SIZE_INCREMENT < UINT32_RANGE := by
      norm_num [TIME_STATS_SIZE_INCREMENT, UINT32_RANGE]
    omega
  · intro hdata
    rw [hlen2]
    unfold totalWakes
    rw [sum_map_eq_length, List.length_take, Nat.min_eq_left hlen]
    intro ev hev
    simp [wakesOf, hpoll, hdata ev hev]

theorem pub_measure_of_null (args : latency_args) (env : MeasureEnv) (s : PubState)
    (h : s.round_trip.values = none) : pub_measure args env s = Run.crashed := by
  simp only [pub_measure, reset_of_null _ h]

/-! ## Lemmas on the Responder -/

theorem echoesOwed_nil : echoesOwed [] = [] := rfl

theorem echoesOwed_marker (x : Sample) (rest : List Sample)
    (h : x.instance_state = InstanceState.notAliveDisposed) : echoesOwed (x :: rest) = [] := by
  simp [echoesOwed, Sample.isMarker, h]

theorem echoesOwed_valid (x : Sample) (rest : List Sample)
    (h : x.instance_state ≠ InstanceState.notAliveDisposed) (hv : x.valid_data = true) :
    echoesOwed (x :: rest) = echoOf x :: echoesOwed rest := by
  simp [echoesOwed, Sample.isMarker, h, hv]

theorem echoesOwed_invalid (x : Sample) (rest : List Sample)
    (h : x.instance_state ≠ InstanceState.notAliveDisposed) (hv : x.valid_data = false) :
    echoesOwed (x :: rest) = echoesOwed rest := by
  simp [echoesOwed, Sample.isMarker, h, hv]

theorem subLoop_triggered (ws : Nat → Int) (batch : List Sample) (j : Nat) (s : SubState)
    (h : s.triggered = true) : subLoop ws batch j s = some s := by
  cases batch with
  | nil => rfl
  | cons x rest => simp [subLoop, h]

theorem subLoop_spec (ws : Nat → Int) (batch : List Sample) :
    ∀ (j : Nat) (s r : SubState), s.triggered = false → subLoop ws batch j s = some r →
      r = ⟨batch.any Sample.isMarker, s.sent ++ echoesOwed batch⟩ := by
  induction batch with
  | nil =>
    intro j s r ht h
    simp only [subLoop, Option.some.injEq] at h
    subst h
    cases s
    simp_all [echoesOwed_nil]
  | cons x rest ih =>
    intro j s r ht h
    simp only [subLoop, ht, Bool.false_eq_true, if_false] at h
    by_cases hm : x.instance_state = InstanceState.notAliveDisposed
    · rw [if_pos hm] at h
      simp only [Option.some.injEq] at h
      subst h
      simp [echoesOwed_marker x rest hm, Sample.isMarker, hm]
    · rw [if_neg hm] at h
      cases hv : x.valid_data with
      | true =>
        rw [hv] at h
        simp only [if_true] at h
        split at h
        · exact absurd h (by simp)
        · rw [ih _ _ r rfl h, echoesOwed_valid x rest hm hv]
          simp [Sample.isMarker, hm]
      | false =>
        rw [hv] at h
        simp only [Bool.false_eq_true, if_false] at h
        rw [ih _ _ r ht h, echoesOwed_invalid x rest hm hv]
        simp [Sample.isMarker, hm]

theorem subLoop_isSome (ws : Nat → Int) (hw : ∀ j, 0 ≤ ws j) (batch : List Sample) :
    ∀ (j : Nat) (s : SubState), ∃ r, subLoop ws batch j s = some r := by
  induction batch with
  | nil => intro j s; exact ⟨s, rfl⟩
  | cons x rest ih =>
    intro j s
    simp only [subLoop]
    split
    · exact ⟨_, rfl⟩
    · split
      · exact ⟨_, rfl⟩
      · split
        · rw [if_neg (by have := hw j; omega)]
          exact ih _ _
        · exact ih _ _

theorem sub_main_loop_triggered (use_listener : Bool) (evs : List SubEvent) (s : SubState)
    (h : s.triggered = true) : sub_main_loop use_listener evs s = Run.exited s := by
  cases evs with
  | nil => simp [sub_main_loop, h]
  | cons ev rest => simp [sub_main_loop, h]

/-! ## Lemmas on `main` -/

theorem ite_ne_sendQuit (c : Prop) [Decidable c] (a : latency_args) (o : String) :
    (if c then MainAction.usageExit else MainAction.run a o) ≠ MainAction.sendQuit := by
  split <;> simp

/-! ## Lemmas on `pub_data_available` -/

theorem pub_data_available_eq (w : PubWake) (s : PubState) (stamps : List Int)
    (ht : w.take = some stamps) (hw : 0 ≤ w.writeStatus) :
    pub_data_available w s = some { s with
      pub_info0 := stamps.headD s.pub_info0
      postTakeTime := w.postTake
      round_trip := exampleAddTimingToTimeStats w.alloc s.round_trip
        (w.postTake - stamps.headD s.pub_info0)
      preWriteTime := w.preWrite
      written := s.written ++ [w.preWrite]
      postWriteTime := w.postWrite } := by
  simp only [pub_data_available, ht]
  rw [if_neg (by omega)]

theorem pub_data_available_first_response (w : PubWake) (s : PubState) (stamp : Int)
    (rest : List Int) (ht : w.take = some (stamp :: rest)) (hw : 0 ≤ w.writeStatus) :
    ∃ r, pub_data_available w s = some r ∧
      r.round_trip = exampleAddTimingToTimeStats w.alloc s.round_trip (w.postTake - stamp) :=
  ⟨_, pub_data_available_eq w s (stamp :: rest) ht hw, rfl⟩

/-! ## The claims -/

/-- C1: for every non-empty sequence of timings recorded with `exampleAddTimingToTimeStats`
starting from a freshly initialised or reset `ExampleTimeStats`, the average (in exact rational
arithmetic) is the arithmetic mean of exactly those timings, `min` is their minimum, `max` is
their maximum and `count` is their number; hence the three statistics are the same for every
permutation of the sequence.  The number of timings is below the range of `unsigned long`. -/
theorem C1_running_statistics (a : Allocator) (s0 : ExampleTimeStats) (ts : List Int)
    (hfresh : (∃ a0, s0 = exampleInitTimeStats a0) ∨ (∃ s, exampleResetTimeStats s = some s0))
    (hne : ts ≠ []) (hlen : ts.length < ULONG_RANGE) :
    (recordAll a s0 ts).average = mean ts ∧
    ((recordAll a s0 ts).min ∈ ts ∧ ∀ t ∈ ts, (recordAll a s0 ts).min ≤ t) ∧
    ((recordAll a s0 ts).max ∈ ts ∧ ∀ t ∈ ts, t ≤ (recordAll a s0 ts).max) ∧
    (recordAll a s0 ts).count = ts.length ∧
    ∀ ts2 : List Int, List.Perm ts ts2 →
      (recordAll a s0 ts2).average = (recordAll a s0 ts).average ∧
      (recordAll a s0 ts2).min = (recordAll a s0 ts).min ∧
      (recordAll a s0 ts2).max = (recordAll a s0 ts).max := by
  have hc : s0.count = 0 := by
    rcases hfresh with ⟨a0, rfl⟩ | ⟨s, h⟩
    · rfl
    · obtain ⟨cells, -, rfl⟩ := reset_block s s0 h
      rfl
  have ha : s0.average = 0 := by
    rcases hfresh with ⟨a0, rfl⟩ | ⟨s, h⟩
    · rfl
    · obtain ⟨cells, -, rfl⟩ := reset_block s s0 h
      rfl
  have hmean : ∀ us : List Int, us ≠ [] → us.length < ULONG_RANGE →
      (recordAll a s0 us).average = mean us := by
    intro us hus hl
    have h := (statsOf_recordAll a s0 hc ha us hl).avg_eq
    have hpos : (us.length : ℚ) ≠ 0 := by
      have : us.length ≠ 0 := by simpa using hus
      exact_mod_cast this
    unfold mean
    rw [eq_div_iff hpos]
    exact h
  have h := statsOf_recordAll a s0 hc ha ts hlen
  refine ⟨hmean ts hne hlen, ⟨h.min_mem hne, h.min_le hne⟩, ⟨h.max_mem hne, h.le_max hne⟩,
    h.count_eq, ?_⟩
  intro ts2 hp
  have hne2 : ts2 ≠ [] := by
    intro h0
    subst h0
    exact hne (List.Perm.eq_nil hp)
  have hlen2 : ts2.length < ULONG_RANGE := by rw [← hp.length_eq]; exact hlen
  have h2 := statsOf_recordAll a s0 hc ha ts2 hlen2
  refine ⟨?_, ?_, ?_⟩
  · rw [hmean ts hne hlen, hmean ts2 hne2 hlen2]
    unfold mean
    rw [(hp.map _).sum_eq, hp.length_eq]
  · apply le_antisymm
    · exact h2.min_le hne2 _ (hp.subset (h.min_mem hne))
    · exact h.min_le hne _ (hp.symm.subset (h2.min_mem hne2))
  · apply le_antisymm
    · exact h.le_max hne _ (hp.symm.subset (h2.max_mem hne2))
    · exact h2.le_max hne2 _ (hp.subset (h.max_mem hne))

/-- C1 at the timings 30, 10, 20 recorded after `exampleInitTimeStats`: the average is 20, the
minimum 10, the maximum 30 and the count 3. -/
theorem C1_running_statistics_witness :
    (recordAll zeroAllocator (exampleInitTimeStats zeroAllocator) [30, 10, 20]).average
      = 20 ∧
    (recordAll zeroAllocator (exampleInitTimeStats zeroAllocator) [30, 10, 20]).min
      = 10 ∧
    (recordAll zeroAllocator (exampleInitTimeStats zeroAllocator) [30, 10, 20]).max
      = 30 ∧
    (recordAll zeroAllocator (exampleInitTimeStats zeroAllocator) [30, 10, 20]).count
      = 3 := by
  obtain ⟨havg, ⟨hmin, hminle⟩, ⟨hmax, hmaxle⟩, hcount, -⟩ :=
    C1_running_statistics zeroAllocator (exampleInitTimeStats zeroAllocator)
      [30, 10, 20] (Or.inl ⟨_, rfl⟩) (by decide) (by decide)
  refine ⟨?_, ?_, ?_, ?_⟩
  · rw [havg]; norm_num [mean]
  · have h10 := hminle 10 (by decide)
    simp only [List.mem_cons, List.mem_singleton, List.not_mem_nil, or_false] at hmin
    omega
  · have h30 := hmaxle 30 (by decide)
    simp only [List.mem_cons, List.mem_singleton, List.not_mem_nil, or_false] at hmax
    omega
  · simpa using hcount

/-- C2, evaluated on the code: after `exampleInitTimeStats` with a successful allocation, recording
the 3 x 50000 distinct timings 0, 1, ..., 149999 leaves a stored history of only the first 50000 of
them; the capacity `valuesMax` is still `TIME_STATS_SIZE_INCREMENT`, so the storage never grew,
while `count` is 150000. -/
theorem C2_history_stops_at_capacity :
    history (recordAll zeroAllocator (exampleInitTimeStats zeroAllocator)
        ((List.range 150000).map Int.ofNat))
      = ((List.range 150000).map Int.ofNat).take 50000 ∧
    (history (recordAll zeroAllocator (exampleInitTimeStats zeroAllocator)
        ((List.range 150000).map Int.ofNat))).length = 50000 ∧
    (recordAll zeroAllocator (exampleInitTimeStats zeroAllocator)
        ((List.range 150000).map Int.ofNat)).valuesMax = TIME_STATS_SIZE_INCREMENT ∧
    (recordAll zeroAllocator (exampleInitTimeStats zeroAllocator)
        ((List.range 150000).map Int.ofNat)).count = 150000 := by
  have hs := sized_init zeroAllocator
  have hv : (exampleInitTimeStats zeroAllocator).values.isSome = true := by
    simp [exampleInitTimeStats, malloc, zeroAllocator]
  have hh := history_recordAll zeroAllocator ((List.range 150000).map Int.ofNat) _ hs hv
  have h0 : history (exampleInitTimeStats zeroAllocator) = [] := by
    unfold history
    exact List.take_zero _
  have hlen : ((List.range 150000).map Int.ofNat).length = 150000 := by
    rw [List.length_map, List.length_range]
  rw [h0, List.nil_append] at hh
  refine ⟨hh, ?_, (sized_recordAll _ _ _ hs).max_eq, ?_⟩
  · rw [hh, List.length_take, hlen]
    rfl
  · rw [count_recordAll _ _ rfl _ (by rw [hlen]; norm_num [ULONG_RANGE]), hlen]

/-- C3, evaluated on the code: `exampleResetTimeStats` after a successful `exampleInitTimeStats`
returns, and with 50001 timings of 2000 ns recorded since that reset the export loop runs 50001
times while the stored history has 50000 entries; its last iteration reads index 50000, which is
no cell of the block, so the row numbered 50001 has no latency drawn from the history. -/
theorem C3_export_reads_past_history :
    ∃ s0, exampleResetTimeStats (exampleInitTimeStats zeroAllocator) = some s0 ∧
      (exportRows 16 0 (recordAll zeroAllocator s0 (List.replicate 50001 2000))).length
        = 50001 ∧
      (history (recordAll zeroAllocator s0 (List.replicate 50001 2000))).length = 50000 ∧
      (exportRows 16 0 (recordAll zeroAllocator s0 (List.replicate 50001 2000)))[50000]?
        = some ⟨50001, 16, none⟩ := by
  have hv0 : (exampleInitTimeStats zeroAllocator).values.isSome = true := by
    simp [exampleInitTimeStats, malloc, zeroAllocator]
  obtain ⟨cells, hcells⟩ := Option.isSome_iff_exists.mp hv0
  obtain ⟨s0, hreset⟩ : ∃ s0, exampleResetTimeStats (exampleInitTimeStats zeroAllocator)
      = some s0 := ⟨_, reset_of_block _ cells hcells⟩
  refine ⟨s0, hreset, ?_⟩
  have hs := sized_reset _ _ hreset (sized_init zeroAllocator)
  have hv := (isSome_reset _ _ hreset).1
  obtain ⟨hc0, -, -, -, hsz0, -⟩ := reset_fields _ _ hreset
  have hlen : (List.replicate 50001 (2000 : Int)).length = 50001 := List.length_replicate _ _
  have hcount := count_recordAll zeroAllocator s0 hc0 (List.replicate 50001 2000)
    (by rw [hlen]; norm_num [ULONG_RANGE])
  rw [hlen] at hcount
  have hsr := sized_recordAll zeroAllocator (List.replicate 50001 2000) _ hs
  have hvr := (isSome_recordAll zeroAllocator (List.replicate 50001 2000) _ hs).trans hv
  refine ⟨?_, ?_, ?_⟩
  · rw [length_exportRows, hcount]
  · have h0 : (history s0).length = 0 := by
      rw [history_length s0 hs hv, hsz0]
    rw [history_recordAll _ _ _ hs hv, List.length_take, List.length_append, hlen, h0, hs.max_eq]
    rfl
  · rw [getElem?_exportRows _ _ _ 50000 (by rw [hcount]; norm_num),
      latencyAt_of_block _ hsr hvr 50000 (by norm_num [TIME_STATS_SIZE_INCREMENT])]
    rfl

/-- C4, evaluated on the code: with payload size 16, sample budget 1, time budget 0, poll
delivery, no stop request and a block that was allocated, a single wait that times out (return
value 0) uses up the budget: the loop is left after it and the export writes no row, where the
claim has exactly 1. -/
theorem C4_timeout_consumes_budget :
    (pub_measure ⟨16, 1, 0, false⟩ ⟨0, 0, 0, 0, [timeoutEvent], []⟩
      (pubStart zeroAllocator)).result?.map (fun x => x.1) = some [] := by
  decide

/-- C5, evaluated on the code: with a time budget `T > 0`, an unbounded sample budget, no stop
request and no failing transport call, the measurement phase of `pub_main` (entered with the
block of the aggregator allocated) is still inside its loop after every finite sequence of waits,
whatever the clock readings in them: `elapsed`, which the loop condition compares with the
budget, is 0 from its initialiser and nothing assigns it. -/
theorem C5_time_budget_never_ends_loop (args : latency_args) (env : MeasureEnv) (s : PubState)
    (hT : 0 < args.timeOut) (hN : args.numSamples = 0)
    (hblock : s.round_trip.values.isSome = true)
    (hel : s.elapsed = 0) (hstop : s.triggered = false ∧ ∀ ev ∈ env.waits, ev.sigint = false)
    (hsound : 0 ≤ env.writeStatus ∧ ∀ ev ∈ env.waits, ev.sound) :
    pub_measure args env s = Run.blocked := by
  obtain ⟨cells, hcells⟩ := Option.isSome_iff_exists.mp hblock
  obtain ⟨stats, hreset⟩ : ∃ stats, exampleResetTimeStats s.round_trip = some stats :=
    ⟨_, reset_of_block _ cells hcells⟩
  obtain ⟨hc0, -⟩ := reset_fields _ _ hreset
  have h := measureLoop_time_budget args hT hN env.waits 0
    { s with
      round_trip := stats
      startTime := env.start
      preWriteTime := env.preWrite
      written := s.written ++ [env.preWrite]
      postWriteTime := env.postWrite }
    (by show stats.count < ULONG_RANGE; rw [hc0]; norm_num [ULONG_RANGE]) hel hstop.1 hstop.2
    hsound.2
  simp only [pub_measure, hreset]
  rw [if_neg (by omega), h]

/-- C5 at a time budget of 1 second, the measurement phase starting at clock reading 0: the
clock, read after each take, stands 5, 10 and 15 seconds after the start, and the loop is still
iterating. -/
theorem C5_time_budget_never_ends_loop_witness :
    pub_measure ⟨16, 0, 1, false⟩
      ⟨0, 0, 0, 0, [dataEvent 0 5000000000, dataEvent 5000000000 10000000000,
        dataEvent 10000000000 15000000000], []⟩ (pubStart zeroAllocator) = Run.blocked :=
  C5_time_budget_never_ends_loop ⟨16, 0, 1, false⟩
    ⟨0, 0, 0, 0, [dataEvent 0 5000000000, dataEvent 5000000000 10000000000,
      dataEvent 10000000000 15000000000], []⟩ (pubStart zeroAllocator) (by decide) rfl
    (by simp [pubStart, exampleInitTimeStats, malloc, zeroAllocator]) rfl
    ⟨rfl, by intro ev hev; simp at hev; rcases hev with h | h | h <;> rw [h] <;> rfl⟩
    ⟨le_refl _, by intro ev hev; simp at hev; rcases hev with h | h | h <;> rw [h] <;>
      exact dataEvent_sound _ _⟩

/-- C6 as stated fails: a batch taken when the waitset is already triggered (the Responder is
stopped, as after the SIGINT `main` sends it) holds a valid request that precedes no marker, an
echo is owed for it, and `sub_data_available` publishes nothing. -/
theorem C6_no_echo_once_stopped :
    sub_data_available ⟨some [⟨[97, 97, 97], 42, true, InstanceState.alive⟩], fun _ => 0⟩
        ⟨true, []⟩ = some ⟨true, []⟩ ∧
    echoesOwed [⟨[97, 97, 97], 42, true, InstanceState.alive⟩] = [⟨[97, 97, 97], 42⟩] := by
  decide

/-- C6 amended: for every batch taken by `sub_data_available` while the waitset is not
triggered, no transport call failing, the Responder publishes exactly one echo for every request
(sample with valid data, of any payload size) that precedes any termination marker, in the order
the requests were taken; every echo published has the payload and the source timestamp of a
request of the batch, so the Responder assigns no timestamp of its own. -/
theorem C6_echo_unchanged (w : SubWake) (s : SubState) (batch : List Sample)
    (hrun : s.triggered = false) (htake : w.take = some batch)
    (hwrite : ∀ j, 0 ≤ w.writeStatus j) :
    ∃ r, sub_data_available w s = some r ∧
      r.sent = s.sent ++
        ((batch.takeWhile (fun x => !x.isMarker)).filter (fun x => x.valid_data)).map echoOf ∧
      ∀ e ∈ echoesOwed batch, ∃ x ∈ batch, x.valid_data = true ∧
        e.payload = x.payload ∧ e.timestamp = x.source_timestamp := by
  obtain ⟨r, hr⟩ := subLoop_isSome w.writeStatus hwrite batch 0 s
  refine ⟨r, ?_, ?_, ?_⟩
  · simp only [sub_data_available, htake]
    exact hr
  · rw [subLoop_spec w.writeStatus batch 0 s r hrun hr]
    rfl
  · intro e he
    simp only [echoesOwed, List.mem_map, List.mem_filter] at he
    obtain ⟨x, ⟨hx, hv⟩, rfl⟩ := he
    exact ⟨x, (List.takeWhile_sublist _).subset hx, hv, rfl, rfl⟩

/-- C6 amended, at a batch of two requests (one with an empty payload) followed by a termination
marker and a third request: the two requests before the marker are echoed unchanged, in order. -/
theorem C6_echo_unchanged_witness :
    ∃ r, sub_data_available
        ⟨some [⟨[], 7, true, InstanceState.alive⟩, ⟨[97, 98], 9, true, InstanceState.alive⟩,
          ⟨[], 11, false, InstanceState.notAliveDisposed⟩,
          ⟨[99], 13, true, InstanceState.alive⟩], fun _ => 0⟩ ⟨false, []⟩ = some r ∧
      r.sent = [⟨[], 7⟩, ⟨[97, 98], 9⟩] := by
  obtain ⟨r, hr, hsent, -⟩ := C6_echo_unchanged
    ⟨some [⟨[], 7, true, InstanceState.alive⟩, ⟨[97, 98], 9, true, InstanceState.alive⟩,
      ⟨[], 11, false, InstanceState.notAliveDisposed⟩,
      ⟨[99], 13, true, InstanceState.alive⟩], fun _ => 0⟩ ⟨false, []⟩ _ rfl rfl
    (fun _ => le_refl _)
  refine ⟨r, hr, ?_⟩
  rw [hsent]
  decide

/-- C7: for every batch taken by `sub_data_available` that contains a termination marker, the
call returns (no transport call failing), whenever it returns the Responder is in the STOPPED
state (the trigger of its waitset is set, and the loop of `sub_main` is left), and what it has
published for the batch is taken from the samples before the first marker only: nothing located
at or after the marker is republished.  For a batch without a marker processed while not stopped,
the Responder is not stopped afterwards. -/
theorem C7_marker_stops_responder (w : SubWake) (s : SubState) (batch : List Sample)
    (htake : w.take = some batch) :
    ((∀ j, 0 ≤ w.writeStatus j) → ∃ r, sub_data_available w s = some r) ∧
    ∀ r, sub_data_available w s = some r →
      (batch.any Sample.isMarker = true →
        r.triggered = true ∧
        (∀ (use_listener : Bool) (evs : List SubEvent),
          sub_main_loop use_listener evs r = Run.exited r) ∧
        r.sent = s.sent ++ (if s.triggered then [] else
          ((batch.takeWhile (fun x => !x.isMarker)).filter (fun x => x.valid_data)).map echoOf)) ∧
      (batch.any Sample.isMarker = false → s.triggered = false → r.triggered = false) := by
  refine ⟨?_, ?_⟩
  · intro hw
    simp only [sub_data_available, htake]
    exact subLoop_isSome w.writeStatus hw batch 0 s
  · intro r hr
    simp only [sub_data_available, htake] at hr
    cases ht : s.triggered with
    | true =>
      rw [subLoop_triggered w.writeStatus batch 0 s ht] at hr
      have hrs : r = s := (Option.some.inj hr).symm
      subst hrs
      refine ⟨fun _ => ⟨ht, fun ul evs => sub_main_loop_triggered ul evs r ht, ?_⟩, ?_⟩
      · simp
      · intro _ h
        exact absurd h (by simp)
    | false =>
      have hspec := subLoop_spec w.writeStatus batch 0 s r ht hr
      subst hspec
      refine ⟨fun hm => ⟨hm, fun ul evs => sub_main_loop_triggered ul evs _ hm, ?_⟩, ?_⟩
      · simp [echoesOwed]
      · intro hm _
        exact hm

/-- C7 at a batch of one request, a termination marker and a second request, processed while
not stopped: the call returns, the Responder is stopped, and only the first request is echoed. -/
theorem C7_marker_stops_responder_witness :
    ∃ r, sub_data_available
        ⟨some [⟨[1], 7, true, InstanceState.alive⟩,
          ⟨[], 11, false, InstanceState.notAliveDisposed⟩,
          ⟨[2], 13, true, InstanceState.alive⟩], fun _ => 0⟩ ⟨false, []⟩ = some r ∧
      r.triggered = true ∧ r.sent = [⟨[1], 7⟩] := by
  obtain ⟨hret, hprop⟩ := C7_marker_stops_responder
    ⟨some [⟨[1], 7, true, InstanceState.alive⟩,
      ⟨[], 11, false, InstanceState.notAliveDisposed⟩,
      ⟨[2], 13, true, InstanceState.alive⟩], fun _ => 0⟩ ⟨false, []⟩ _ rfl
  obtain ⟨r, hr⟩ := hret (fun _ => le_refl _)
  obtain ⟨htrig, -, hsent⟩ := (hprop r hr).1 (by decide)
  refine ⟨r, hr, htrig, ?_⟩
  rw [hsent]
  decide

/-- C8, evaluated on the code: the payload size argument 0 is accepted and 104857601 is rejected
through `usage ()`, but 4294967296 and 4294967312, whose values are above the ceiling of
104857600 and do not fit in 32 bits, are converted to `uint32_t` before the comparison and are
accepted as the payload sizes 0 and 16: the workers are started. -/
theorem C8_payload_checked_after_truncation :
    main ["ping", "0"] = MainAction.run ⟨0, 0, 0, false⟩ DEFAULT_OUTPUT_FILE ∧
    main ["ping", "104857601"] = MainAction.usageExit ∧
    (PAYLOAD_CEILING : Int) < atol "4294967296" ∧
    main ["ping", "4294967296"] = MainAction.run ⟨0, 0, 0, false⟩ DEFAULT_OUTPUT_FILE ∧
    main ["ping", "4294967312"] = MainAction.run ⟨16, 0, 0, false⟩ DEFAULT_OUTPUT_FILE := by
  refine ⟨by decide, by decide, by decide, by decide, by decide⟩

/-- C9, evaluated on the code: invoked with the single argument `quit`, `main` reads the
argument as the payload size 0 and starts a measurement run with the default arguments; no
argument vector makes `main` send a termination marker. -/
theorem C9_quit_starts_a_measurement :
    main ["ping", "quit"] = MainAction.run ⟨0, 0, 0, false⟩ DEFAULT_OUTPUT_FILE ∧
    ∀ argv : List String, main argv ≠ MainAction.sendQuit := by
  refine ⟨by decide, ?_⟩
  intro argv
  exact ite_ne_sendQuit _ _ _

/-- C11, evaluated on the code: a call of `pub_data_available` whose take returns no sample still
records a timing, and the value recorded is the post-take time minus the source timestamp left in
`pub_info[0]` by an earlier batch; `count` goes up by one although no response was received. -/
theorem C11_timing_recorded_without_response (w : PubWake) (s : PubState)
    (ht : w.take = some []) (hw : 0 ≤ w.writeStatus) :
    ∃ r, pub_data_available w s = some r ∧
      r.round_trip = exampleAddTimingToTimeStats w.alloc s.round_trip (w.postTake - s.pub_info0) ∧
      r.round_trip.count = (s.round_trip.count + 1) % ULONG_RANGE ∧
      r.pub_info0 = s.pub_info0 :=
  ⟨_, pub_data_available_eq w s [] ht hw, rfl, rfl, rfl⟩

/-- C11 at two calls after `exampleInitTimeStats`: the first takes one response stamped 100 at
clock reading 300 and records 200; the second, at clock reading 5000, takes nothing and records
4900 = 5000 - 100 against the timestamp of the first batch.  Two timings are in the history and
`count` is 2, with one response received. -/
theorem C11_timing_recorded_without_response_witness :
    ∃ r1 r2, pub_data_available (responseWake 100 300) (pubStart zeroAllocator) = some r1 ∧
      pub_data_available (emptyWake 5000) r1 = some r2 ∧
      r2.round_trip.count = 2 ∧ history r2.round_trip = [200, 4900] := by
  have h1 := pub_data_available_eq (responseWake 100 300) (pubStart zeroAllocator) [100] rfl
    (le_refl _)
  obtain ⟨r2, h2, hrt, -, -⟩ := C11_timing_recorded_without_response (emptyWake 5000)
    { pubStart zeroAllocator with
      pub_info0 := 100
      postTakeTime := 300
      round_trip := exampleAddTimingToTimeStats zeroAllocator (exampleInitTimeStats zeroAllocator)
        200
      preWriteTime := 300
      written := [300]
      postWriteTime := 300 } rfl (le_refl _)
  have hrec : r2.round_trip
      = recordAll zeroAllocator (exampleInitTimeStats zeroAllocator) [200, 4900] := by
    rw [hrt]
    rfl
  have hv : (exampleInitTimeStats zeroAllocator).values.isSome = true := by
    simp [exampleInitTimeStats, malloc, zeroAllocator]
  have h0 : history (exampleInitTimeStats zeroAllocator) = [] := by
    unfold history
    exact List.take_zero _
  refine ⟨_, r2, h1, h2, ?_, ?_⟩
  · rw [hrec, count_recordAll _ _ rfl _ (by norm_num [ULONG_RANGE])]
    rfl
  · rw [hrec, history_recordAll _ _ _ (sized_init zeroAllocator) hv, h0, List.nil_append]
    exact List.take_of_length_le (by decide)

end PingPong
